import Mathlib

/-!
Verification of the "lots-of-knobs" USB-MIDI controller firmware
(input-event core): debounced key-matrix scanning (`key_matrix.py`),
quadrature decoding (`encoder.py`), MIDI message encoding and note
tracking (`midi_output.py`), and the main dispatch loop (`code.py`).

Times are modelled as rationals (seconds), mirroring the float seconds
of `time.monotonic()`.  Python integers are modelled as `ℤ`.
-/

namespace LotsOfKnobs

/-! ## Key matrix debounce (`key_matrix.py`, `KeyMatrix.scan`)

`scan()` reads, for each key, the raw electrical level and applies:

    if is_pressed != self.key_states[key_num] and time_since_change > self.DEBOUNCE_TIME:
        self.key_states[key_num] = is_pressed
        self.last_change_time[key_num] = current_time

where `time_since_change = current_time - self.last_change_time[key_num]`.
Each key number occurs exactly once in `KEY_MAP`, so per scan each
switch is updated by this rule exactly once; we embed the per-switch
update as `debounceStep`. -/

/-- Per-switch debounce state: `key_states[k]` and `last_change_time[k]`. -/
structure SwitchState where
  key_state : Bool
  last_change_time : ℚ
deriving DecidableEq, Repr

/-- `KeyMatrix.DEBOUNCE_TIME = 0.02` (20ms, in seconds). -/
def DEBOUNCE_TIME : ℚ := 1 / 50

/-- One debounce update of one switch inside `KeyMatrix.scan`:
`is_pressed` is the raw reading and `current_time` the time captured at
the top of `scan()`. -/
def debounceStep (s : SwitchState) (is_pressed : Bool) (current_time : ℚ) : SwitchState :=
  if is_pressed ≠ s.key_state ∧ current_time - s.last_change_time > DEBOUNCE_TIME then
    { key_state := is_pressed, last_change_time := current_time }
  else
    s

/-- Run one switch through a sequence of scans; each list entry is the
raw reading and the `time.monotonic()` value of one `scan()` call. -/
def runScans (s : SwitchState) : List (Bool × ℚ) → SwitchState
  | [] => s
  | (r, t) :: rest => runScans (debounceStep s r t) rest

/-- The timestamps of the scans at which the switch's stable state
actually changed (was committed). -/
def commitTimes (s : SwitchState) : List (Bool × ℚ) → List ℚ
  | [] => []
  | (r, t) :: rest =>
    let s' := debounceStep s r t
    if s'.key_state ≠ s.key_state then t :: commitTimes s' rest
    else commitTimes s' rest

/-! ## Rotary encoder (`encoder.py`)

`RotaryEncoder.update()` samples CLK (phase A) and DT (phase B).  On a
high→low transition of CLK it sets `delta = ±1` from DT, adds that unit
to `position`, and — if acceleration is enabled and less than 50ms have
passed since the last registered edge — multiplies `delta` (not the
position step) by 2.  Any other CLK observation returns 0. -/

/-- Mutable state of `RotaryEncoder` (pins are inputs to `update`). -/
structure RotaryEncoder where
  position : ℤ
  last_clk_state : Bool
  acceleration_enabled : Bool
  last_rotation_time : ℚ
deriving DecidableEq, Repr

/-- `RotaryEncoder.ACCELERATION_THRESHOLD = 0.05` (50ms, in seconds). -/
def ACCELERATION_THRESHOLD : ℚ := 1 / 20

/-- `RotaryEncoder.ACCELERATION_MULTIPLIER = 2`. -/
def ACCELERATION_MULTIPLIER : ℤ := 2

/-- `RotaryEncoder.update(self)`: `current_clk` and `dt` are the pin
levels read during the call, `current_time` is `time.monotonic()`.
Returns the delta and the new state. -/
def RotaryEncoder.update (s : RotaryEncoder) (current_clk dt : Bool) (current_time : ℚ) :
    ℤ × RotaryEncoder :=
  if s.last_clk_state && !current_clk then
    let base : ℤ := if dt then 1 else -1
    let delta : ℤ :=
      if s.acceleration_enabled ∧
          current_time - s.last_rotation_time < ACCELERATION_THRESHOLD then
        base * ACCELERATION_MULTIPLIER
      else base
    (delta,
      { s with
        position := s.position + base
        last_rotation_time := current_time
        last_clk_state := current_clk })
  else
    (0, { s with last_clk_state := current_clk })

/-! ### `EncoderWithValue` (`encoder.py`)

Wraps the raw decoder with a clamped value in `[min_value, max_value]`.
`update()` applies the raw delta via `max(min_value, min(max_value,
value + delta))` and returns the actual change `value - old_value`. -/

structure EncoderWithValue where
  encoder : RotaryEncoder
  value : ℤ
  min_value : ℤ
  max_value : ℤ
deriving DecidableEq, Repr

/-- `EncoderWithValue.update(self)`: runs the raw decoder, then applies
the clamped addition when the raw delta is non-zero. -/
def EncoderWithValue.update (e : EncoderWithValue) (current_clk dt : Bool)
    (current_time : ℚ) : ℤ × EncoderWithValue :=
  let p := RotaryEncoder.update e.encoder current_clk dt current_time
  if p.1 ≠ 0 then
    let old_value := e.value
    let value' := max e.min_value (min e.max_value (e.value + p.1))
    (value' - old_value, { e with encoder := p.2, value := value' })
  else
    (0, { e with encoder := p.2 })

/-! ## Collaborator calls and emitted effects

The dispatch loop and the shutdown handler drive the MIDI, LED and
display collaborators.  We record each call/emission as an `Event`. -/

/-- The five collaborators acquired by `code.py`. -/
inductive Collaborator where
  | display
  | scanner
  | encoder
  | leds
  | midi
deriving DecidableEq, Repr

/-- One observable effect of the firmware: a MIDI message actually sent,
an LED call, a display call, a sleep, or a collaborator release. -/
inductive Event where
  | midiNoteOn (note velocity channel : ℤ)
  | midiNoteOff (note velocity channel : ℤ)
  | midiControlChange (cc_num value channel : ℤ)
  | ledSetColor (key r g b : ℕ)
  | ledSetValue (key : ℕ) (value : ℤ)
  | ledShow
  | ledClear
  | ledSetBrightness (b : ℚ)
  | displayFullStatus (layer : ℕ) (layer_name param_name : String)
      (value cc_num channel : ℤ)
  | displayLayer (layer : ℕ) (layer_name : String)
  | displayShowMessage (text : String)
  | sleepFor (d : ℚ)
  | deinit (c : Collaborator)
deriving DecidableEq, Repr

/-! ## MIDI byte encoding (`midi_output.py`, class `MIDIOutput`)

Every builder first clamps its arguments (`_validate_value`,
`_validate_channel`) and then assembles the raw byte list written to the
USB-MIDI port.  All clamped fields are non-negative, so taking `toNat`
images of the clamped `ℤ` values is exact (the `bytes()` range check in
Python can never fire). -/

/-- `MIDIOutput` state: the default channel (set clamped in `__init__`). -/
structure MIDIOutput where
  default_channel : ℤ
deriving DecidableEq, Repr

/-- `MIDIOutput.NOTE_OFF = 0x80`. -/
def NOTE_OFF : ℕ := 0x80

/-- `MIDIOutput.NOTE_ON = 0x90`. -/
def NOTE_ON : ℕ := 0x90

/-- `MIDIOutput.CONTROL_CHANGE = 0xB0`. -/
def CONTROL_CHANGE : ℕ := 0xB0

/-- `MIDIOutput.PROGRAM_CHANGE = 0xC0`. -/
def PROGRAM_CHANGE : ℕ := 0xC0

/-- `MIDIOutput._validate_channel`: `max(1, min(16, channel))`. -/
def MIDIOutput._validate_channel (channel : ℤ) : ℤ := max 1 (min 16 channel)

/-- `MIDIOutput._validate_value`: `max(min_val, min(max_val, value))`. -/
def MIDIOutput._validate_value (value min_val max_val : ℤ) : ℤ :=
  max min_val (min max_val value)

/-- `MIDIOutput._get_channel`: the default channel on `None`, else the
validated explicit channel. -/
def MIDIOutput._get_channel (m : MIDIOutput) : Option ℤ → ℤ
  | none => m.default_channel
  | some c => MIDIOutput._validate_channel c

/-- `MIDIOutput.note_on`: `[0x90 | (ch-1), note, velocity]`. -/
def MIDIOutput.note_on (m : MIDIOutput) (note velocity : ℤ) (channel : Option ℤ) :
    List ℕ :=
  let ch := m._get_channel channel
  let n := MIDIOutput._validate_value note 0 127
  let v := MIDIOutput._validate_value velocity 0 127
  [NOTE_ON ||| (ch - 1).toNat, n.toNat, v.toNat]

/-- `MIDIOutput.note_off`: `[0x80 | (ch-1), note, velocity]`. -/
def MIDIOutput.note_off (m : MIDIOutput) (note velocity : ℤ) (channel : Option ℤ) :
    List ℕ :=
  let ch := m._get_channel channel
  let n := MIDIOutput._validate_value note 0 127
  let v := MIDIOutput._validate_value velocity 0 127
  [NOTE_OFF ||| (ch - 1).toNat, n.toNat, v.toNat]

/-- `MIDIOutput.control_change`: `[0xB0 | (ch-1), cc_number, value]`. -/
def MIDIOutput.control_change (m : MIDIOutput) (cc_number value : ℤ)
    (channel : Option ℤ) : List ℕ :=
  let ch := m._get_channel channel
  let c := MIDIOutput._validate_value cc_number 0 127
  let v := MIDIOutput._validate_value value 0 127
  [CONTROL_CHANGE ||| (ch - 1).toNat, c.toNat, v.toNat]

/-- `MIDIOutput.program_change`: `[0xC0 | (ch-1), program]` (two bytes). -/
def MIDIOutput.program_change (m : MIDIOutput) (program : ℤ)
    (channel : Option ℤ) : List ℕ :=
  let ch := m._get_channel channel
  let p := MIDIOutput._validate_value program 0 127
  [PROGRAM_CHANGE ||| (ch - 1).toNat, p.toNat]

/-! ## MIDI note tracking (`midi_output.py`, class `MIDINote`)

`MIDINote` keeps the set of currently active notes and suppresses
duplicate Note-On / spurious Note-Off.  We record an actually sent
message as a `Event.midiNoteOn` / `Event.midiNoteOff` (its wire bytes
are `MIDIOutput.note_on` / `note_off`, settled by `C8_message_encoding`). -/

structure MIDINote where
  active_notes : Finset ℤ
deriving DecidableEq

/-- `MIDINote.play`: sends Note-On and records the note, unless the note
is already active, in which case it does nothing. -/
def MIDINote.play (mn : MIDINote) (note velocity channel : ℤ) :
    MIDINote × List Event :=
  if note ∈ mn.active_notes then (mn, [])
  else (⟨insert note mn.active_notes⟩, [.midiNoteOn note velocity channel])

/-- `MIDINote.stop`: sends Note-Off (release velocity 0) and discards
the note, unless the note is not active, in which case it does nothing. -/
def MIDINote.stop (mn : MIDINote) (note channel : ℤ) : MIDINote × List Event :=
  if note ∈ mn.active_notes then
    (⟨mn.active_notes.erase note⟩, [.midiNoteOff note 0 channel])
  else (mn, [])

/-- `MIDINote.stop_all`: sends Note-Off for every active note and clears
the set.  Python iterates `list(self.active_notes)` in unspecified set
order; we fix the ascending order (any enumeration of the set). -/
def MIDINote.stop_all (mn : MIDINote) (channel : ℤ) : MIDINote × List Event :=
  (⟨∅⟩, (mn.active_notes.sort (· ≤ ·)).map (fun n => .midiNoteOff n 0 channel))

/-! ## Main dispatch loop (`code.py`)

Per-iteration inputs are the raw logical levels of the 18 matrix
switches (`raw`, indexed by key number; `True` = contact closed), the
two encoder pin levels and `time.monotonic()`.  Fixed configuration
from `code.py`: layer 1 "Default", notes C4..D#5, CC#1..16, channel 1. -/

/-- `current_layer = 1`. -/
def current_layer : ℕ := 1

/-- `layer_name = "Default"`. -/
def layer_name : String := "Default"

/-- `midi_channel = 1`. -/
def midi_channel : ℤ := 1

/-- `KEY_TO_NOTE = list(range(60, 76))`. -/
def KEY_TO_NOTE : List ℤ := (List.range 16).map (fun i => 60 + (i : ℤ))

/-- `KEY_TO_CC = list(range(1, 17))`. -/
def KEY_TO_CC : List ℤ := (List.range 16).map (fun i => 1 + (i : ℤ))

/-- `KEY_PARAM_NAMES`. -/
def KEY_PARAM_NAMES : List String :=
  ["Cutoff", "Reso", "Attack", "Decay",
   "Release", "LFO Rt", "LFO Amt", "Drive",
   "Reverb", "Delay", "Chorus", "Pan",
   "Volume", "Filter", "Pitch", "Mod"]

/-- `DISPLAY_UPDATE_INTERVAL = 0.1` (100ms). -/
def DISPLAY_UPDATE_INTERVAL : ℚ := 1 / 10

/-- Event discriminators (used to state which messages a block emits). -/
def Event.isDisplayLayer : Event → Bool
  | .displayLayer _ _ => true
  | _ => false

def Event.isControlChange : Event → Bool
  | .midiControlChange _ _ _ => true
  | _ => false

def Event.isLedSetValue : Event → Bool
  | .ledSetValue _ _ => true
  | _ => false

def Event.isDisplayFullStatus : Event → Bool
  | .displayFullStatus _ _ _ _ _ _ => true
  | _ => false

def Event.isLedShow : Event → Bool
  | .ledShow => true
  | _ => false

/-- The clamped per-key CC update of the dispatch block:
`max(0, min(127, key_cc_values[key_num] + encoder_delta))`. -/
def newValOf (encoder_delta : ℤ) (key_cc_values : List ℤ) (key_num : ℕ) : ℤ :=
  max 0 (min 127 (key_cc_values.getD key_num 0 + encoder_delta))

/-- Body of the `for key_num in pressed_keys` loop of the encoder
dispatch block (`code.py` lines 199–225): clamped CC update
(`newValOf`), and on a value change a Control-Change, an LED update and
— only when `key_num == pressed_keys[0]` (passed here as `hd`) — a
display refresh. -/
def dispatchStep (encoder_delta : ℤ) (hd : Option ℕ) (channel : ℤ) :
    List ℤ × List Event → ℕ → List ℤ × List Event
  | (vals, evs), key_num =>
    let new_val := newValOf encoder_delta vals key_num
    let vals' := vals.set key_num new_val
    if new_val ≠ vals.getD key_num 0 then
      let cc_num := KEY_TO_CC.getD key_num 0
      let evs1 := evs ++
        [.midiControlChange cc_num new_val channel, .ledSetValue key_num new_val]
      if hd = some key_num then
        (vals', evs1 ++ [.displayFullStatus current_layer layer_name
          (KEY_PARAM_NAMES.getD key_num "") new_val cc_num channel])
      else (vals', evs1)
    else (vals', evs)

/-- The encoder dispatch block (`code.py` lines 194–228): runs only when
the (post-clamp) encoder delta is non-zero and some playable key is
held; processes every held key in list order and flushes the LEDs once
at the end. -/
def encoderDispatch (encoder_delta : ℤ) (pressed_keys : List ℕ)
    (key_cc_values : List ℤ) (channel : ℤ) : List ℤ × List Event :=
  if encoder_delta ≠ 0 ∧ pressed_keys ≠ [] then
    let r := pressed_keys.foldl
      (dispatchStep encoder_delta pressed_keys.head? channel) (key_cc_values, [])
    (r.1, r.2 ++ [.ledShow])
  else (key_cc_values, [])

/-- The newly-pressed block for one key (`code.py` lines 157–178):
`midi_note.play`, white LED flash, LED restore to the value colour, and
a full-status display refresh. -/
def pressEvents (mn : MIDINote) (key_num : ℕ) (key_cc_values : List ℤ)
    (channel : ℤ) : MIDINote × List Event :=
  let p := mn.play (KEY_TO_NOTE.getD key_num 0) 100 channel
  (p.1, p.2 ++
    [.ledSetColor key_num 255 255 255, .ledShow, .sleepFor (3/100),
     .ledSetValue key_num (key_cc_values.getD key_num 0), .ledShow,
     .displayFullStatus current_layer layer_name (KEY_PARAM_NAMES.getD key_num "")
       (key_cc_values.getD key_num 0) (KEY_TO_CC.getD key_num 0) channel])

/-- The events the dispatch block emits for one held key, in terms of
the value array as it stood when the block started (the keys are
distinct, so each key only ever reads its own bucket). -/
def perKeyEvs (encoder_delta : ℤ) (hd : Option ℕ) (channel : ℤ)
    (key_cc_values : List ℤ) (key_num : ℕ) : List Event :=
  if newValOf encoder_delta key_cc_values key_num ≠ key_cc_values.getD key_num 0 then
    [.midiControlChange (KEY_TO_CC.getD key_num 0)
        (newValOf encoder_delta key_cc_values key_num) channel,
     .ledSetValue key_num (newValOf encoder_delta key_cc_values key_num)] ++
    (if hd = some key_num then
      [.displayFullStatus current_layer layer_name (KEY_PARAM_NAMES.getD key_num "")
        (newValOf encoder_delta key_cc_values key_num) (KEY_TO_CC.getD key_num 0)
        channel]
     else [])
  else []

/-- Accumulator step of the newly-pressed loop (`code.py` 157–178). -/
def pressFold (key_cc_values : List ℤ) (channel : ℤ)
    (acc : MIDINote × List Event) (key_num : ℕ) : MIDINote × List Event :=
  let r := pressEvents acc.1 key_num key_cc_values channel
  (r.1, acc.2 ++ r.2)

/-- Accumulator step of the newly-released loop (`code.py` 181–185). -/
def releaseFold (channel : ℤ) (acc : MIDINote × List Event) (key_num : ℕ) :
    MIDINote × List Event :=
  let r := acc.1.stop (KEY_TO_NOTE.getD key_num 0) channel
  (r.1, acc.2 ++ r.2)

/-- The mutable state threaded through main-loop iterations. -/
structure LoopState where
  switches : List SwitchState
  encoder : EncoderWithValue
  midi_note : MIDINote
  key_cc_values : List ℤ
  prev_pressed_keys : List ℕ
  last_display_update : ℚ

/-- The physical inputs of one loop iteration. -/
structure LoopInput where
  raw : List Bool
  clk : Bool
  dt : Bool
  now : ℚ

/-- `matrix.scan()`: every switch is debounced against the same
`current_time`; `raw` is indexed by key number (each key number occurs
exactly once in `KEY_MAP`). -/
def scannedSwitches (s : LoopState) (inp : LoopInput) : List SwitchState :=
  List.zipWith (fun sw r => debounceStep sw r inp.now) s.switches inp.raw

/-- `pressed_keys = [k for k in matrix.get_pressed_keys() if k < 16]`
(ascending key order). -/
def pressedKeysOf (s : LoopState) (inp : LoopInput) : List ℕ :=
  ((List.range 18).filter
      (fun i => ((scannedSwitches s inp).getD i ⟨false, 0⟩).key_state)).filter
    (fun k => decide (k < 16))

/-- One iteration of the main `while True` loop of `code.py`:
scan, decode, Note-On for newly pressed keys, Note-Off for newly
released keys, throttled idle-layer redraw, encoder dispatch, state
save, frame-pacing sleep. -/
def loopStep (s : LoopState) (inp : LoopInput) : LoopState × List Event :=
  let switches' := scannedSwitches s inp
  let encp := EncoderWithValue.update s.encoder inp.clk inp.dt inp.now
  let pressed_keys := pressedKeysOf s inp
  let newly_pressed := pressed_keys.filter (fun k => decide (k ∉ s.prev_pressed_keys))
  let newly_released := s.prev_pressed_keys.filter (fun k => decide (k ∉ pressed_keys))
  let pr := newly_pressed.foldl (pressFold s.key_cc_values midi_channel)
    (s.midi_note, ([] : List Event))
  let rel := newly_released.foldl (releaseFold midi_channel) pr
  let idle :=
    if pressed_keys = [] ∧ s.prev_pressed_keys ≠ [] then
      if inp.now - s.last_display_update > DISPLAY_UPDATE_INTERVAL then
        (inp.now, [Event.displayLayer current_layer layer_name])
      else (s.last_display_update, ([] : List Event))
    else (s.last_display_update, ([] : List Event))
  let disp := encoderDispatch encp.1 pressed_keys s.key_cc_values midi_channel
  ({ switches := switches'
     encoder := encp.2
     midi_note := rel.1
     key_cc_values := disp.1
     prev_pressed_keys := pressed_keys
     last_display_update := idle.1 },
   rel.2 ++ idle.2 ++ disp.2 ++ [.sleepFor (1/100)])

/-- Run the main loop over a list of per-iteration inputs, concatenating
the emitted events. -/
def runLoop (s : LoopState) : List LoopInput → LoopState × List Event
  | [] => (s, [])
  | inp :: rest =>
    let r := loopStep s inp
    let r2 := runLoop r.1 rest
    (r2.1, r.2 ++ r2.2)

/-- The order in which `code.py` acquires its collaborators
(display 1/5, key matrix 2/5, encoder 3/5, LEDs 4/5, MIDI 5/5). -/
def acquisitionOrder : List Collaborator :=
  [.display, .scanner, .encoder, .leds, .midi]

/-- The `KeyboardInterrupt` shutdown handler of `code.py`: shutting-down
message, `midi_note.stop_all`, LED brightness blink ×3, `leds.clear()`,
then `matrix.deinit(); encoder.deinit(); leds.deinit(); midi.deinit();
display.deinit()` — where `midi.deinit()` itself sends All-Notes-Off
(CC#123) on channels 1–16 before releasing the port. -/
def shutdownSequence (mn : MIDINote) (channel : ℤ) : List Event :=
  [.displayShowMessage "Shutting\ndown..."] ++
  (mn.stop_all channel).2 ++
  (List.replicate 3
    [Event.ledSetBrightness (1/20), .sleepFor (3/20),
     .ledSetBrightness (3/10), .sleepFor (3/20)]).flatten ++
  [.ledClear, .deinit .scanner, .deinit .encoder, .deinit .leds] ++
  (List.range 16).map (fun i : ℕ => Event.midiControlChange 123 0 ((i : ℤ) + 1)) ++
  [.deinit .midi, .deinit .display]

/-- The collaborators released by an event sequence, in order. -/
def deinitsOf (evs : List Event) : List Collaborator :=
  evs.filterMap (fun e => match e with | .deinit c => some c | _ => none)

/-- The loop state at startup of `code.py`: all switches stable-open
with zero last-change time, encoder at 64 in [0,127] with acceleration
off, no active notes, all sixteen CC values 64, nothing previously
pressed, `last_display_update = 0`. -/
def C7init : LoopState :=
  { switches := List.replicate 18 ⟨false, 0⟩
    encoder := ⟨⟨0, true, false, 0⟩, 64, 0, 127⟩
    midi_note := ⟨∅⟩
    key_cc_values := List.replicate 16 64
    prev_pressed_keys := []
    last_display_update := 0 }

/-- A loop-iteration input at time `t` with key 0 raw-pressed iff
`raw0`, the other 17 switches open, and the encoder pins idle high. -/
def C7in (raw0 : Bool) (t : ℚ) : LoopInput :=
  ⟨raw0 :: List.replicate 17 false, true, true, t⟩

/-- A `debounceStep` either leaves the state untouched, or commits the
raw reading with the scan time, the latter exactly when the raw reading
differs and more than `DEBOUNCE_TIME` has passed since the last commit. -/
lemma debounceStep_cases (s : SwitchState) (r : Bool) (t : ℚ) :
    (¬(r ≠ s.key_state ∧ t - s.last_change_time > DEBOUNCE_TIME) ∧ debounceStep s r t = s) ∨
    ((r ≠ s.key_state ∧ t - s.last_change_time > DEBOUNCE_TIME) ∧
      debounceStep s r t = ⟨r, t⟩) := by
  by_cases h : r ≠ s.key_state ∧ t - s.last_change_time > DEBOUNCE_TIME
  · right
    exact ⟨h, by simp [debounceStep, h]⟩
  · left
    exact ⟨h, by simp [debounceStep, h]⟩

lemma key_state_changed_iff (s : SwitchState) (r : Bool) (t : ℚ) :
    (debounceStep s r t).key_state ≠ s.key_state ↔
      (r ≠ s.key_state ∧ t - s.last_change_time > DEBOUNCE_TIME) := by
  rcases debounceStep_cases s r t with ⟨h, he⟩ | ⟨h, he⟩
  · rw [he]
    simp [h]
  · rw [he]
    simp [h.1]
    exact h.2

/-- Every commit time recorded from state `s` is more than
`DEBOUNCE_TIME` after `s.last_change_time`. -/
lemma commitTimes_head_gt (tr : List (Bool × ℚ)) :
    ∀ s : SwitchState, ∀ t ∈ (commitTimes s tr).head?,
      DEBOUNCE_TIME < t - s.last_change_time := by
  induction tr with
  | nil => intro s t ht; simp [commitTimes] at ht
  | cons p rest ih =>
    intro s t ht
    obtain ⟨r, tm⟩ := p
    rcases debounceStep_cases s r tm with ⟨h, he⟩ | ⟨h, he⟩
    · have hnc : ¬ (debounceStep s r tm).key_state ≠ s.key_state := by
        rw [he]; simp
      rw [commitTimes, if_neg hnc, he] at ht
      exact ih s t ht
    · have hc : (debounceStep s r tm).key_state ≠ s.key_state := by
        rw [he]; simpa using h.1
      rw [commitTimes, if_pos hc] at ht
      simp only [List.head?_cons, Option.mem_def, Option.some.injEq] at ht
      subst ht
      exact h.2

/-- Consecutive commit times are more than `DEBOUNCE_TIME` apart. -/
lemma commitTimes_chain (tr : List (Bool × ℚ)) :
    ∀ s : SwitchState,
      List.Chain' (fun a b => DEBOUNCE_TIME < b - a) (commitTimes s tr) := by
  induction tr with
  | nil => intro s; simp [commitTimes]
  | cons p rest ih =>
    intro s
    obtain ⟨r, tm⟩ := p
    rcases debounceStep_cases s r tm with ⟨h, he⟩ | ⟨h, he⟩
    · have hnc : ¬ (debounceStep s r tm).key_state ≠ s.key_state := by
        rw [he]; simp
      rw [commitTimes, if_neg hnc]
      exact ih _
    · have hc : (debounceStep s r tm).key_state ≠ s.key_state := by
        rw [he]; simpa using h.1
      rw [commitTimes, if_pos hc]
      rw [List.chain'_cons']
      constructor
      · intro b hb
        have := commitTimes_head_gt rest (debounceStep s r tm) b hb
        rw [he] at this
        exact this
      · exact ih _

/-- Helper: a window of width `DEBOUNCE_TIME` contains at most one
element of any list whose consecutive gaps all exceed `DEBOUNCE_TIME`. -/
lemma pairwise_window_le_one (l : List ℚ)
    (hp : List.Pairwise (fun a b => DEBOUNCE_TIME < b - a) l) (t0 : ℚ) :
    (l.filter (fun t => decide (t0 ≤ t ∧ t ≤ t0 + DEBOUNCE_TIME))).length ≤ 1 := by
  have hsub := List.filter_sublist (l := l)
      (p := fun t => decide (t0 ≤ t ∧ t ≤ t0 + DEBOUNCE_TIME))
  have hp' := hp.sublist hsub
  match hl : l.filter (fun t => decide (t0 ≤ t ∧ t ≤ t0 + DEBOUNCE_TIME)) with
  | [] => simp
  | [x] => simp
  | x :: y :: rest =>
    exfalso
    rw [hl] at hp'
    have hxy : DEBOUNCE_TIME < y - x :=
      List.rel_of_pairwise_cons hp' (List.mem_cons_self y rest)
    have hx : x ∈ l.filter (fun t => decide (t0 ≤ t ∧ t ≤ t0 + DEBOUNCE_TIME)) := by
      rw [hl]; simp
    have hy : y ∈ l.filter (fun t => decide (t0 ≤ t ∧ t ≤ t0 + DEBOUNCE_TIME)) := by
      rw [hl]; simp
    rw [List.mem_filter] at hx hy
    have hx2 := of_decide_eq_true hx.2
    have hy2 := of_decide_eq_true hy.2
    linarith [hx2.1, hx2.2, hy2.1, hy2.2]

/-- **C9**: for any single switch and any sequence of `scan()` calls,
committed stable-state changes are pairwise more than the 20ms debounce
interval apart; consequently any window of width `DEBOUNCE_TIME`
contains at most one committed change, so a raw signal toggling any
number of times within one debounce interval yields at most one
committed change. -/
theorem C9_debounce_rate_limit (s : SwitchState) (tr : List (Bool × ℚ)) :
    List.Pairwise (fun a b => DEBOUNCE_TIME < b - a) (commitTimes s tr) ∧
    ∀ t0 : ℚ,
      ((commitTimes s tr).filter
        (fun t => decide (t0 ≤ t ∧ t ≤ t0 + DEBOUNCE_TIME))).length ≤ 1 := by
  have hD : (0 : ℚ) < DEBOUNCE_TIME := by norm_num [DEBOUNCE_TIME]
  haveI : IsTrans ℚ (fun a b => DEBOUNCE_TIME < b - a) := by
    constructor
    intro a b c hab hbc
    simp only at hab hbc ⊢
    linarith
  have hpair : List.Pairwise (fun a b => DEBOUNCE_TIME < b - a) (commitTimes s tr) :=
    List.chain'_iff_pairwise.mp (commitTimes_chain tr s)
  exact ⟨hpair, fun t0 => pairwise_window_le_one _ hpair t0⟩

/-- **C1 counterexample**: start from stable `false` with
`last_change_time = 0`.  The raw reading is `false` at t = 1/2, flicks
to `true` at t = 1 and is already back to `false` at t = 101/100 — a
flicker that settles back after 10ms, well before the 20ms debounce
interval elapses.  The claim says such a flicker produces no committed
state change; the code commits the change immediately at t = 1 (and a
second change at t = 2), because `scan()` only requires the raw reading
to differ from the stable state and 20ms to have passed since the last
*committed* change — it does not require the raw reading to have
differed continuously for 20ms. -/
theorem C1_counterexample :
    commitTimes ⟨false, 0⟩ [(false, 1/2), (true, 1), (false, 101/100), (false, 2)]
      = [1, 2] ∧
    (101/100 : ℚ) - 1 < DEBOUNCE_TIME := by
  constructor
  · simp only [commitTimes, debounceStep, DEBOUNCE_TIME]
    norm_num
  · norm_num [DEBOUNCE_TIME]

/-- **C1 amended**: a switch's stable state changes at a scan exactly
when the raw reading differs from the stable state AND strictly more
than the 20ms debounce interval has elapsed since the last *committed*
state change; when it changes, it is set to the raw reading and the
commit time is recorded.  (By `C9_debounce_rate_limit`, committed
changes are thus more than 20ms apart, but a raw flicker shorter than
20ms can itself commit a change immediately.) -/
theorem C1_amended_debounce_commit (s : SwitchState) (raw : Bool) (t : ℚ) :
    ((debounceStep s raw t).key_state ≠ s.key_state ↔
      (raw ≠ s.key_state ∧ DEBOUNCE_TIME < t - s.last_change_time)) ∧
    ((debounceStep s raw t).key_state ≠ s.key_state →
      debounceStep s raw t = ⟨raw, t⟩) := by
  constructor
  · exact key_state_changed_iff s raw t
  · intro hc
    rcases debounceStep_cases s raw t with ⟨_, he⟩ | ⟨_, he⟩
    · rw [he] at hc; simp at hc
    · exact he

/-- Witness for `C1_amended_debounce_commit` at a concrete input. -/
theorem C1_amended_witness :
    (debounceStep ⟨false, 0⟩ true 1).key_state ≠ (SwitchState.mk false 0).key_state ∧
    debounceStep ⟨false, 0⟩ true 1 = ⟨true, 1⟩ := by
  have h := C1_amended_debounce_commit ⟨false, 0⟩ true 1
  have hc : (debounceStep ⟨false, 0⟩ true 1).key_state ≠ (SwitchState.mk false 0).key_state := by
    rw [h.1]
    constructor
    · simp
    · norm_num [DEBOUNCE_TIME]
  exact ⟨hc, h.2 hc⟩

/-- **C2**: `RotaryEncoder.update()` returns +1 exactly on a phase-A
(CLK) high→low transition with phase B (DT) high, −1 on a high→low
transition with DT low, the magnitude multiplied by 2 when acceleration
is enabled and less than 50ms have passed since the previously
registered edge; any call observing no phase-A falling edge returns 0
and leaves `position` unchanged (and on a falling edge `position` moves
by the un-accelerated ±1 unit). -/
theorem C2_quadrature_decode (s : RotaryEncoder) (clk dt : Bool) (t : ℚ) :
    ((RotaryEncoder.update s clk dt t).1 =
      if s.last_clk_state && !clk then
        (if dt then 1 else -1) *
          (if s.acceleration_enabled ∧ t - s.last_rotation_time < ACCELERATION_THRESHOLD
            then 2 else 1)
      else 0) ∧
    ((RotaryEncoder.update s clk dt t).2.position =
      if s.last_clk_state && !clk then
        s.position + (if dt then 1 else -1)
      else s.position) := by
  unfold RotaryEncoder.update
  constructor
  · by_cases hedge : s.last_clk_state && !clk
    · simp only [hedge, if_true]
      by_cases hacc : s.acceleration_enabled ∧
          t - s.last_rotation_time < ACCELERATION_THRESHOLD
      · simp [hacc, ACCELERATION_MULTIPLIER]
      · simp [hacc]
    · simp [hedge]
  · by_cases hedge : s.last_clk_state && !clk
    · simp [hedge]
    · simp [hedge]

/-- **C5**: `EncoderWithValue.update()` never drives `value` outside
`[min_value, max_value]`; it returns the actual change applied (new
value minus old value) rather than the raw decoder delta; and once the
value sits at `max_value`, any further non-negative raw delta leaves the
value saturated at `max_value` and makes the returned actual delta 0. -/
theorem C5_value_clamp (e : EncoderWithValue) (clk dt : Bool) (t : ℚ)
    (hrange : e.min_value ≤ e.max_value)
    (hlo : e.min_value ≤ e.value) (hhi : e.value ≤ e.max_value) :
    (e.min_value ≤ (EncoderWithValue.update e clk dt t).2.value ∧
      (EncoderWithValue.update e clk dt t).2.value ≤ e.max_value) ∧
    ((EncoderWithValue.update e clk dt t).1 =
      (EncoderWithValue.update e clk dt t).2.value - e.value) ∧
    (e.value = e.max_value → 0 ≤ (RotaryEncoder.update e.encoder clk dt t).1 →
      (EncoderWithValue.update e clk dt t).2.value = e.max_value ∧
      (EncoderWithValue.update e clk dt t).1 = 0) := by
  unfold EncoderWithValue.update
  by_cases hd : (RotaryEncoder.update e.encoder clk dt t).1 ≠ 0
  · rw [if_pos hd]
    refine ⟨⟨le_max_left _ _, max_le hrange (min_le_left _ _)⟩, rfl, ?_⟩
    intro hsat hpos
    have h1 : min e.max_value (e.value + (RotaryEncoder.update e.encoder clk dt t).1)
        = e.max_value := by
      rw [min_eq_left]
      omega
    constructor
    · show max e.min_value
        (min e.max_value (e.value + (RotaryEncoder.update e.encoder clk dt t).1))
          = e.max_value
      rw [h1, max_eq_right hrange]
    · show max e.min_value
        (min e.max_value (e.value + (RotaryEncoder.update e.encoder clk dt t).1))
          - e.value = 0
      rw [h1, max_eq_right hrange]
      omega
  · rw [if_neg hd]
    refine ⟨⟨hlo, hhi⟩, by simp, fun hsat _ => ⟨hsat, rfl⟩⟩

/-- Witness for `C5_value_clamp`: a concrete saturated encoder
(`value = max_value = 127`) observing a clockwise falling edge. -/
theorem C5_value_clamp_witness :
    ((0:ℤ) ≤ 127 ∧ (0:ℤ) ≤ 127 ∧ (127:ℤ) ≤ 127) ∧
    ((EncoderWithValue.update ⟨⟨0, true, false, 0⟩, 127, 0, 127⟩ false true 1).2.value
        = 127 ∧
      (EncoderWithValue.update ⟨⟨0, true, false, 0⟩, 127, 0, 127⟩ false true 1).1 = 0) := by
  refine ⟨⟨by norm_num, by norm_num, by norm_num⟩, ?_⟩
  have h := C5_value_clamp ⟨⟨0, true, false, 0⟩, 127, 0, 127⟩ false true 1
      (by norm_num) (by norm_num) (by norm_num)
  refine h.2.2 rfl ?_
  norm_num [RotaryEncoder.update]

/-- Bitwise-or of a status nibble with a channel nibble is addition. -/
lemma lor_status_eq_add :
    (∀ x < 16, 0x80 ||| x = 0x80 + x) ∧ (∀ x < 16, 0x90 ||| x = 0x90 + x) ∧
    (∀ x < 16, 0xB0 ||| x = 0xB0 + x) ∧ (∀ x < 16, 0xC0 ||| x = 0xC0 + x) := by
  refine ⟨?_, ?_, ?_, ?_⟩ <;> decide

lemma validated_channel_nibble_lt (channel : ℤ) :
    (MIDIOutput._validate_channel channel - 1).toNat < 16 := by
  unfold MIDIOutput._validate_channel
  omega

/-- **C8**: for every argument value, `note_on` emits exactly the three
bytes `0x90|(channel-1), note, velocity`; `note_off` emits
`0x80|(channel-1), note, velocity`; `control_change` emits
`0xB0|(channel-1), controller, value`; `program_change` emits exactly
the two bytes `0xC0|(channel-1), program` — where note, velocity,
controller, value and program are first clamped to `[0,127]` and the
channel to `[1,16]`, never rejected; every emitted byte is a valid wire
byte (< 256) and the status or-ing is plain addition of the channel
nibble. -/
theorem C8_message_encoding (m : MIDIOutput)
    (note velocity cc_number value program channel : ℤ) :
    (m.note_on note velocity (some channel) =
      [0x90 ||| (max 1 (min 16 channel) - 1).toNat,
        (max 0 (min 127 note)).toNat, (max 0 (min 127 velocity)).toNat]) ∧
    (m.note_off note velocity (some channel) =
      [0x80 ||| (max 1 (min 16 channel) - 1).toNat,
        (max 0 (min 127 note)).toNat, (max 0 (min 127 velocity)).toNat]) ∧
    (m.control_change cc_number value (some channel) =
      [0xB0 ||| (max 1 (min 16 channel) - 1).toNat,
        (max 0 (min 127 cc_number)).toNat, (max 0 (min 127 value)).toNat]) ∧
    (m.program_change program (some channel) =
      [0xC0 ||| (max 1 (min 16 channel) - 1).toNat,
        (max 0 (min 127 program)).toNat]) ∧
    (0x90 ||| (max 1 (min 16 channel) - 1).toNat
      = 0x90 + (max 1 (min 16 channel) - 1).toNat) ∧
    (∀ b ∈ m.note_on note velocity (some channel), b < 256) ∧
    (∀ b ∈ m.program_change program (some channel), b < 256) := by
  have hch : (MIDIOutput._validate_channel channel - 1).toNat < 16 :=
    validated_channel_nibble_lt channel
  have hch' : (max 1 (min 16 channel) - 1).toNat < 16 := hch
  refine ⟨rfl, rfl, rfl, rfl, lor_status_eq_add.2.1 _ hch', ?_, ?_⟩
  · intro b hb
    simp only [MIDIOutput.note_on, MIDIOutput._get_channel,
      MIDIOutput._validate_channel, MIDIOutput._validate_value, NOTE_ON,
      List.mem_cons, List.not_mem_nil, or_false] at hb
    rcases hb with h | h | h
    · subst h
      rw [lor_status_eq_add.2.1 _ hch']
      omega
    · subst h; omega
    · subst h; omega
  · intro b hb
    simp only [MIDIOutput.program_change, MIDIOutput._get_channel,
      MIDIOutput._validate_channel, MIDIOutput._validate_value,
      PROGRAM_CHANGE, List.mem_cons, List.not_mem_nil, or_false] at hb
    rcases hb with h | h
    · subst h
      rw [lor_status_eq_add.2.2.2 _ hch']
      omega
    · subst h; omega

/-- **C4**: for every note, calling `play` twice in a row without an
intervening `stop` emits exactly one Note-On when the note was not
already active (and none when it was): `play` sends nothing precisely
when the note is already in the active set, always leaves the set equal
to `insert note active_notes` (so a no-op play leaves it unchanged), and
`stop` sends nothing when the note is not in the set. -/
theorem C4_at_most_one_note_on (mn : MIDINote) (note velocity channel : ℤ) :
    ((mn.play note velocity channel).2 ++
        ((mn.play note velocity channel).1.play note velocity channel).2 =
      if note ∈ mn.active_notes then []
      else [Event.midiNoteOn note velocity channel]) ∧
    ((mn.play note velocity channel).2 = [] ↔ note ∈ mn.active_notes) ∧
    ((mn.play note velocity channel).1.active_notes = insert note mn.active_notes) ∧
    (note ∈ mn.active_notes → mn.play note velocity channel = (mn, [])) ∧
    (note ∉ mn.active_notes → mn.stop note channel = (mn, [])) := by
  by_cases h : note ∈ mn.active_notes
  · refine ⟨?_, ?_, ?_, ?_, ?_⟩
    · simp [MIDINote.play, h]
    · simp [MIDINote.play, h]
    · simp [MIDINote.play, h, Finset.insert_eq_self.mpr h]
    · intro _; simp [MIDINote.play, h]
    · intro hn; exact absurd h hn
  · have h2 : note ∈ insert note mn.active_notes := Finset.mem_insert_self _ _
    refine ⟨?_, ?_, ?_, ?_, ?_⟩
    · simp [MIDINote.play, h, h2]
    · simp [MIDINote.play, h]
    · simp [MIDINote.play, h]
    · intro hn; exact absurd hn h
    · intro _; simp [MIDINote.stop, h]

/-- Witness for `C4_at_most_one_note_on`: the already-active no-op play
at note 3 with active set `{3}`, and the not-active no-op stop on the
empty active set. -/
theorem C4_witness :
    ((3:ℤ) ∈ (MIDINote.mk {3}).active_notes ∧
      MIDINote.play ⟨{3}⟩ 3 100 1 = (⟨{3}⟩, [])) ∧
    ((3:ℤ) ∉ (MIDINote.mk ∅).active_notes ∧
      MIDINote.stop ⟨∅⟩ 3 1 = (⟨∅⟩, [])) := by
  constructor
  · have hm : (3:ℤ) ∈ (MIDINote.mk {3}).active_notes := by simp
    exact ⟨hm, (C4_at_most_one_note_on ⟨{3}⟩ 3 100 1).2.2.2.1 hm⟩
  · have hm : (3:ℤ) ∉ (MIDINote.mk ∅).active_notes := by simp
    exact ⟨hm, (C4_at_most_one_note_on ⟨∅⟩ 3 100 1).2.2.2.2 hm⟩

/-! ### Characterisation of the encoder dispatch block -/

lemma getD_set_ne (vals : List ℤ) (k j : ℕ) (v : ℤ) (h : k ≠ j) :
    (vals.set k v).getD j 0 = vals.getD j 0 := by
  simp [List.getD_eq_getElem?_getD, List.getElem?_set_ne h]

lemma getD_set_self (vals : List ℤ) (k : ℕ) (v : ℤ) (h : k < vals.length) :
    (vals.set k v).getD k 0 = v := by
  simp [List.getD_eq_getElem?_getD, List.getElem?_set_self h]

lemma newValOf_set_ne (delta : ℤ) (vals : List ℤ) (k j : ℕ) (v : ℤ) (h : k ≠ j) :
    newValOf delta (vals.set k v) j = newValOf delta vals j := by
  unfold newValOf
  rw [getD_set_ne vals k j v h]

lemma perKeyEvs_set_ne (delta : ℤ) (hd : Option ℕ) (ch : ℤ) (vals : List ℤ)
    (k j : ℕ) (v : ℤ) (h : k ≠ j) :
    perKeyEvs delta hd ch (vals.set k v) j = perKeyEvs delta hd ch vals j := by
  unfold perKeyEvs
  rw [newValOf_set_ne delta vals k j v h, getD_set_ne vals k j v h]

lemma flatMap_congr_mem {α β : Type} {l : List α} {f g : α → List β}
    (h : ∀ a ∈ l, f a = g a) : l.flatMap f = l.flatMap g := by
  induction l with
  | nil => rfl
  | cons x xs ih =>
    rw [List.flatMap_cons, List.flatMap_cons, h x (List.mem_cons_self x xs),
      ih (fun a ha => h a (List.mem_cons_of_mem _ ha))]

/-- One `dispatchStep` sets the key's bucket to the clamped value and
appends exactly the per-key events. -/
lemma dispatchStep_char (delta : ℤ) (hd : Option ℕ) (ch : ℤ) (vals : List ℤ)
    (evs : List Event) (k : ℕ) :
    dispatchStep delta hd ch (vals, evs) k =
      (vals.set k (newValOf delta vals k), evs ++ perKeyEvs delta hd ch vals k) := by
  simp only [dispatchStep, perKeyEvs]
  by_cases h1 : newValOf delta vals k ≠ vals.getD k 0
  · rw [if_pos h1, if_pos h1]
    by_cases h2 : hd = some k
    · rw [if_pos h2, if_pos h2]
      simp
    · rw [if_neg h2, if_neg h2]
      simp
  · rw [if_neg h1, if_neg h1]
    simp

/-- The fold of the dispatch block: the events appended are the per-key
events computed against the initial value array, and each bucket ends at
its clamped value. -/
lemma dispatch_foldl_char (delta : ℤ) (hd : Option ℕ) (ch : ℤ) (keys : List ℕ) :
    ∀ (vals : List ℤ) (evs0 : List Event),
      (∀ k ∈ keys, k < vals.length) → keys.Nodup →
      ((keys.foldl (dispatchStep delta hd ch) (vals, evs0)).2
          = evs0 ++ keys.flatMap (perKeyEvs delta hd ch vals)) ∧
      (∀ i : ℕ, (keys.foldl (dispatchStep delta hd ch) (vals, evs0)).1.getD i 0
          = if i ∈ keys then newValOf delta vals i else vals.getD i 0) ∧
      (keys.foldl (dispatchStep delta hd ch) (vals, evs0)).1.length = vals.length := by
  induction keys with
  | nil =>
    intro vals evs0 _ _
    refine ⟨by simp, fun i => by simp, rfl⟩
  | cons k rest ih =>
    intro vals evs0 hlt hnd
    have hk : k < vals.length := hlt k (List.mem_cons_self k rest)
    have hnotmem : k ∉ rest := (List.nodup_cons.mp hnd).1
    have hrest : rest.Nodup := (List.nodup_cons.mp hnd).2
    have hlt' : ∀ j ∈ rest, j < (vals.set k (newValOf delta vals k)).length := by
      intro j hj
      rw [List.length_set]
      exact hlt j (List.mem_cons_of_mem _ hj)
    rw [List.foldl_cons, dispatchStep_char]
    obtain ⟨ihe, ihv, ihl⟩ := ih (vals.set k (newValOf delta vals k))
      (evs0 ++ perKeyEvs delta hd ch vals k) hlt' hrest
    refine ⟨?_, ?_, ?_⟩
    · rw [ihe]
      have hsame : rest.flatMap (perKeyEvs delta hd ch (vals.set k (newValOf delta vals k)))
          = rest.flatMap (perKeyEvs delta hd ch vals) :=
        flatMap_congr_mem (fun j hj =>
          perKeyEvs_set_ne delta hd ch vals k j _ (fun he => hnotmem (he ▸ hj)))
      rw [hsame, List.flatMap_cons, List.append_assoc]
    · intro i
      rw [ihv i]
      by_cases hir : i ∈ rest
      · have hik : k ≠ i := fun he => hnotmem (he ▸ hir)
        rw [if_pos hir, if_pos (List.mem_cons_of_mem _ hir),
          newValOf_set_ne delta vals k i _ hik]
      · rw [if_neg hir]
        by_cases hik : i = k
        · subst hik
          rw [getD_set_self vals i _ hk, if_pos (List.mem_cons_self i rest)]
        · rw [getD_set_ne vals k i _ (fun he => hik he.symm)]
          have : i ∉ k :: rest := by
            intro hmem
            rcases List.mem_cons.mp hmem with h | h
            · exact hik h
            · exact hir h
          rw [if_neg this]
    · rw [ihl, List.length_set]

lemma perKeyEvs_filter_cc (delta : ℤ) (hd : Option ℕ) (ch : ℤ) (vals : List ℤ)
    (k : ℕ) :
    (perKeyEvs delta hd ch vals k).filter Event.isControlChange
      = if newValOf delta vals k ≠ vals.getD k 0 then
          [Event.midiControlChange (KEY_TO_CC.getD k 0) (newValOf delta vals k) ch]
        else [] := by
  unfold perKeyEvs
  by_cases h1 : newValOf delta vals k ≠ vals.getD k 0
  · rw [if_pos h1, if_pos h1]
    by_cases h2 : hd = some k
    · rw [if_pos h2]; rfl
    · rw [if_neg h2]; rfl
  · rw [if_neg h1, if_neg h1]; rfl

lemma perKeyEvs_filter_led (delta : ℤ) (hd : Option ℕ) (ch : ℤ) (vals : List ℤ)
    (k : ℕ) :
    (perKeyEvs delta hd ch vals k).filter Event.isLedSetValue
      = if newValOf delta vals k ≠ vals.getD k 0 then
          [Event.ledSetValue k (newValOf delta vals k)]
        else [] := by
  unfold perKeyEvs
  by_cases h1 : newValOf delta vals k ≠ vals.getD k 0
  · rw [if_pos h1, if_pos h1]
    by_cases h2 : hd = some k
    · rw [if_pos h2]; rfl
    · rw [if_neg h2]; rfl
  · rw [if_neg h1, if_neg h1]; rfl

lemma perKeyEvs_filter_disp (delta : ℤ) (hd : Option ℕ) (ch : ℤ) (vals : List ℤ)
    (k : ℕ) :
    (perKeyEvs delta hd ch vals k).filter Event.isDisplayFullStatus
      = if newValOf delta vals k ≠ vals.getD k 0 ∧ hd = some k then
          [Event.displayFullStatus current_layer layer_name (KEY_PARAM_NAMES.getD k "")
            (newValOf delta vals k) (KEY_TO_CC.getD k 0) ch]
        else [] := by
  unfold perKeyEvs
  by_cases h1 : newValOf delta vals k ≠ vals.getD k 0
  · rw [if_pos h1]
    by_cases h2 : hd = some k
    · rw [if_pos h2, if_pos ⟨h1, h2⟩]; rfl
    · rw [if_neg h2, if_neg (fun hc => h2 hc.2)]; rfl
  · rw [if_neg h1, if_neg (fun hc => h1 hc.1)]; rfl

lemma perKeyEvs_countP_ledShow (delta : ℤ) (hd : Option ℕ) (ch : ℤ)
    (vals : List ℤ) (k : ℕ) :
    (perKeyEvs delta hd ch vals k).countP Event.isLedShow = 0 := by
  unfold perKeyEvs
  by_cases h1 : newValOf delta vals k ≠ vals.getD k 0
  · rw [if_pos h1]
    by_cases h2 : hd = some k
    · rw [if_pos h2]; rfl
    · rw [if_neg h2]; rfl
  · rw [if_neg h1]; rfl

lemma flatMap_filter_cc (delta : ℤ) (hd : Option ℕ) (ch : ℤ) (vals : List ℤ) :
    ∀ keys : List ℕ,
      (keys.flatMap (perKeyEvs delta hd ch vals)).filter Event.isControlChange
        = (keys.filter (fun k => decide (newValOf delta vals k ≠ vals.getD k 0))).map
            (fun k => Event.midiControlChange (KEY_TO_CC.getD k 0)
              (newValOf delta vals k) ch) := by
  intro keys
  induction keys with
  | nil => rfl
  | cons k rest ih =>
    rw [List.flatMap_cons, List.filter_append, ih, perKeyEvs_filter_cc]
    by_cases h : newValOf delta vals k ≠ vals.getD k 0
    · rw [if_pos h, List.filter_cons_of_pos (by simpa using h), List.map_cons,
        List.singleton_append]
    · rw [if_neg h, List.filter_cons_of_neg (by simpa using h), List.nil_append]

lemma flatMap_filter_led (delta : ℤ) (hd : Option ℕ) (ch : ℤ) (vals : List ℤ) :
    ∀ keys : List ℕ,
      (keys.flatMap (perKeyEvs delta hd ch vals)).filter Event.isLedSetValue
        = (keys.filter (fun k => decide (newValOf delta vals k ≠ vals.getD k 0))).map
            (fun k => Event.ledSetValue k (newValOf delta vals k)) := by
  intro keys
  induction keys with
  | nil => rfl
  | cons k rest ih =>
    rw [List.flatMap_cons, List.filter_append, ih, perKeyEvs_filter_led]
    by_cases h : newValOf delta vals k ≠ vals.getD k 0
    · rw [if_pos h, List.filter_cons_of_pos (by simpa using h), List.map_cons,
        List.singleton_append]
    · rw [if_neg h, List.filter_cons_of_neg (by simpa using h), List.nil_append]

lemma flatMap_filter_disp_tail (delta : ℤ) (ch : ℤ) (vals : List ℤ) (k0 : ℕ) :
    ∀ rest : List ℕ, k0 ∉ rest →
      (rest.flatMap (perKeyEvs delta (some k0) ch vals)).filter
        Event.isDisplayFullStatus = [] := by
  intro rest
  induction rest with
  | nil => intro _; rfl
  | cons j tl ih =>
    intro hmem
    rw [List.flatMap_cons, List.filter_append, perKeyEvs_filter_disp,
      ih (fun h => hmem (List.mem_cons_of_mem _ h))]
    have hne : ¬(newValOf delta vals j ≠ vals.getD j 0 ∧ (some k0 : Option ℕ) = some j) := by
      rintro ⟨_, he⟩
      exact hmem (Option.some_injective _ he ▸ List.mem_cons_self j tl)
    rw [if_neg hne]
    rfl

lemma flatMap_countP_ledShow (delta : ℤ) (hd : Option ℕ) (ch : ℤ) (vals : List ℤ) :
    ∀ keys : List ℕ,
      (keys.flatMap (perKeyEvs delta hd ch vals)).countP Event.isLedShow = 0 := by
  intro keys
  induction keys with
  | nil => rfl
  | cons k rest ih =>
    rw [List.flatMap_cons, List.countP_append, ih, perKeyEvs_countP_ledShow]

/-- **C3**: in every dispatch-loop iteration where the post-clamp
encoder delta is non-zero and the held playable-key list (ascending, as
produced by `get_pressed_keys`) is non-empty, the block applies the
clamped delta to every held key's stored CC value (`newValOf`) and
leaves all other buckets untouched; it emits exactly one Control-Change
on the mapped CC number for each held key whose stored value actually
changed, in ascending key order, with a matching LED update; the display
is refreshed only for the first held key (and only if that key's value
changed); and the LED buffer is flushed exactly once, after all held
keys are processed. -/
theorem C3_encoder_dispatch (delta : ℤ) (pressed : List ℕ) (vals : List ℤ)
    (ch : ℤ) (hdelta : delta ≠ 0) (hne : pressed ≠ [])
    (hsort : pressed.Sorted (· < ·)) (hlt : ∀ k ∈ pressed, k < 16)
    (hlen : vals.length = 16) :
    (∀ k ∈ pressed, (encoderDispatch delta pressed vals ch).1.getD k 0
        = newValOf delta vals k) ∧
    (∀ i : ℕ, i ∉ pressed → (encoderDispatch delta pressed vals ch).1.getD i 0
        = vals.getD i 0) ∧
    ((encoderDispatch delta pressed vals ch).2.filter Event.isControlChange
      = (pressed.filter (fun k => decide (newValOf delta vals k ≠ vals.getD k 0))).map
          (fun k => Event.midiControlChange (KEY_TO_CC.getD k 0)
            (newValOf delta vals k) ch)) ∧
    ((encoderDispatch delta pressed vals ch).2.filter Event.isLedSetValue
      = (pressed.filter (fun k => decide (newValOf delta vals k ≠ vals.getD k 0))).map
          (fun k => Event.ledSetValue k (newValOf delta vals k))) ∧
    ((encoderDispatch delta pressed vals ch).2.filter Event.isDisplayFullStatus
      = if newValOf delta vals pressed.headI ≠ vals.getD pressed.headI 0 then
          [Event.displayFullStatus current_layer layer_name
            (KEY_PARAM_NAMES.getD pressed.headI "") (newValOf delta vals pressed.headI)
            (KEY_TO_CC.getD pressed.headI 0) ch]
        else []) ∧
    ((encoderDispatch delta pressed vals ch).2.countP Event.isLedShow = 1 ∧
      (encoderDispatch delta pressed vals ch).2.getLast? = some Event.ledShow) := by
  cases pressed with
  | nil => exact absurd rfl hne
  | cons k0 rest =>
    have hnd : (k0 :: rest).Nodup := hsort.nodup
    have hk0 : k0 ∉ rest := (List.nodup_cons.mp hnd).1
    have hlt' : ∀ k ∈ k0 :: rest, k < vals.length := fun k hk => hlen ▸ hlt k hk
    have hguard : delta ≠ 0 ∧ (k0 :: rest) ≠ [] := ⟨hdelta, hne⟩
    obtain ⟨hev, hvals, _⟩ := dispatch_foldl_char delta (some k0) ch
      (k0 :: rest) vals [] hlt' hnd
    have hdisp2 : (encoderDispatch delta (k0 :: rest) vals ch).2
        = (k0 :: rest).flatMap (perKeyEvs delta (some k0) ch vals)
            ++ [Event.ledShow] := by
      simp only [encoderDispatch, if_pos hguard, List.head?_cons]
      rw [hev, List.nil_append]
    have hdisp1 : ∀ i, (encoderDispatch delta (k0 :: rest) vals ch).1.getD i 0
        = if i ∈ k0 :: rest then newValOf delta vals i else vals.getD i 0 := by
      intro i
      simp only [encoderDispatch, if_pos hguard, List.head?_cons]
      exact hvals i
    refine ⟨?_, ?_, ?_, ?_, ?_, ?_, ?_⟩
    · intro k hk
      rw [hdisp1 k, if_pos hk]
    · intro i hi
      rw [hdisp1 i, if_neg hi]
    · rw [hdisp2, List.filter_append, flatMap_filter_cc,
        show List.filter Event.isControlChange [Event.ledShow] = [] from rfl,
        List.append_nil]
    · rw [hdisp2, List.filter_append, flatMap_filter_led,
        show List.filter Event.isLedSetValue [Event.ledShow] = [] from rfl,
        List.append_nil]
    · simp only [List.headI]
      rw [hdisp2, List.filter_append,
        show List.filter Event.isDisplayFullStatus [Event.ledShow] = [] from rfl,
        List.append_nil, List.flatMap_cons, List.filter_append,
        perKeyEvs_filter_disp,
        flatMap_filter_disp_tail delta ch vals k0 rest hk0, List.append_nil]
      by_cases hchg : newValOf delta vals k0 ≠ vals.getD k0 0
      · rw [if_pos ⟨hchg, rfl⟩, if_pos hchg]
      · rw [if_neg (fun hc => hchg hc.1), if_neg hchg]
    · rw [hdisp2, List.countP_append, flatMap_countP_ledShow]
      rfl
    · rw [hdisp2, List.getLast?_concat]

/-- Witness for `C3_encoder_dispatch`: spec Scenario 3 — keys 0 and 1
held (values 64 each), encoder delta −1: both stored values become 63,
exactly the two Control-Changes CC#1=63 and CC#2=63 are emitted (in that
order), and exactly one display refresh, for key 0. -/
theorem C3_encoder_dispatch_witness :
    ((-1 : ℤ) ≠ 0) ∧
    ((encoderDispatch (-1) [0, 1] (List.replicate 16 (64 : ℤ)) 1).2.filter
        Event.isControlChange
      = [Event.midiControlChange 1 63 1, Event.midiControlChange 2 63 1]) ∧
    ((encoderDispatch (-1) [0, 1] (List.replicate 16 (64 : ℤ)) 1).2.filter
        Event.isDisplayFullStatus
      = [Event.displayFullStatus 1 "Default" "Cutoff" 63 1 1]) ∧
    (∀ k ∈ [0, 1],
      (encoderDispatch (-1) [0, 1] (List.replicate 16 (64 : ℤ)) 1).1.getD k 0 = 63) := by
  have h := C3_encoder_dispatch (-1) [0, 1] (List.replicate 16 (64 : ℤ)) 1
    (by decide) (by decide) (by decide) (by decide) (by decide)
  refine ⟨by decide, ?_, ?_, ?_⟩
  · rw [h.2.2.1]
    decide
  · rw [h.2.2.2.2.1]
    decide
  · intro k hk
    rw [h.1 k hk]
    fin_cases hk <;> decide

/-! ### Shutdown (C6) -/

lemma deinitsOf_append (a b : List Event) :
    deinitsOf (a ++ b) = deinitsOf a ++ deinitsOf b := by
  unfold deinitsOf
  exact List.filterMap_append a b _

lemma deinitsOf_stop_all (mn : MIDINote) (channel : ℤ) :
    deinitsOf (mn.stop_all channel).2 = [] := by
  unfold MIDINote.stop_all deinitsOf
  induction mn.active_notes.sort (· ≤ ·) with
  | nil => rfl
  | cons n tl ih =>
    rw [List.map_cons, List.filterMap_cons]
    exact ih

lemma deinitsOf_anim :
    deinitsOf (List.replicate 3
      [Event.ledSetBrightness (1/20), .sleepFor (3/20),
       .ledSetBrightness (3/10), .sleepFor (3/20)]).flatten = [] := rfl

lemma deinitsOf_cc_sweep (channel_count : ℕ) :
    deinitsOf ((List.range channel_count).map
      (fun i : ℕ => Event.midiControlChange 123 0 ((i : ℤ) + 1))) = [] := by
  unfold deinitsOf
  induction List.range channel_count with
  | nil => rfl
  | cons n tl ih =>
    rw [List.map_cons, List.filterMap_cons]
    exact ih

/-- **C6 counterexample**: the shutdown handler releases the
collaborators in the order scanner, encoder, LEDs, MIDI, display — not
in the reverse of the acquisition order (display, scanner, encoder,
LEDs, MIDI), whose reverse would be MIDI, LEDs, encoder, scanner,
display.  Shown on the concrete shutdown of an empty active-note set on
channel 1. -/
theorem C6_counterexample :
    deinitsOf (shutdownSequence ⟨∅⟩ 1)
      = [.scanner, .encoder, .leds, .midi, .display] ∧
    deinitsOf (shutdownSequence ⟨∅⟩ 1) ≠ acquisitionOrder.reverse := by
  have h : deinitsOf (shutdownSequence ⟨∅⟩ 1)
      = [.scanner, .encoder, .leds, .midi, .display] := by
    unfold shutdownSequence
    rw [deinitsOf_append, deinitsOf_append, deinitsOf_append, deinitsOf_append,
      deinitsOf_append, deinitsOf_stop_all, deinitsOf_anim, deinitsOf_cc_sweep]
    rfl
  refine ⟨h, ?_⟩
  rw [h]
  decide

/-- **C6 amended**: on the external interrupt that exits the main loop,
the program shows the shutting-down message, flushes every note still in
the tracker's active set (a Note-Off per active note; the set ends
empty), runs the LED brightness blink, and then releases the
collaborators in the order scanner, encoder, LEDs, MIDI, display — i.e.
the matrix scanner first and the display last, which is NOT the reverse
of the acquisition order display, scanner, encoder, LEDs, MIDI. -/
theorem C6_amended_shutdown (mn : MIDINote) (channel : ℤ) :
    (deinitsOf (shutdownSequence mn channel)
      = [.scanner, .encoder, .leds, .midi, .display]) ∧
    (acquisitionOrder = [.display, .scanner, .encoder, .leds, .midi]) ∧
    ((mn.stop_all channel).1.active_notes = ∅) ∧
    (∀ n ∈ mn.active_notes,
      Event.midiNoteOff n 0 channel ∈ shutdownSequence mn channel) ∧
    (Event.displayShowMessage "Shutting\ndown..." ∈ shutdownSequence mn channel) := by
  refine ⟨?_, rfl, rfl, ?_, ?_⟩
  · unfold shutdownSequence
    rw [deinitsOf_append, deinitsOf_append, deinitsOf_append, deinitsOf_append,
      deinitsOf_append, deinitsOf_stop_all, deinitsOf_anim, deinitsOf_cc_sweep]
    rfl
  · intro n hn
    have hmem : Event.midiNoteOff n 0 channel ∈ (mn.stop_all channel).2 := by
      unfold MIDINote.stop_all
      exact List.mem_map_of_mem _ ((Finset.mem_sort _).mpr hn)
    unfold shutdownSequence
    refine List.mem_append_left _ ?_
    refine List.mem_append_left _ ?_
    refine List.mem_append_left _ ?_
    refine List.mem_append_left _ ?_
    exact List.mem_append_right _ hmem
  · unfold shutdownSequence
    refine List.mem_append_left _ ?_
    refine List.mem_append_left _ ?_
    refine List.mem_append_left _ ?_
    refine List.mem_append_left _ ?_
    exact List.mem_append_left _ (List.mem_singleton_self _)

/-- Witness for `C6_amended_shutdown`: note 60 active on channel 1 —
its Note-Off occurs in the shutdown sequence. -/
theorem C6_amended_shutdown_witness :
    ((60 : ℤ) ∈ (MIDINote.mk {60}).active_notes) ∧
    Event.midiNoteOff 60 0 1 ∈ shutdownSequence ⟨{60}⟩ 1 := by
  have hn : (60 : ℤ) ∈ (MIDINote.mk {60}).active_notes := by simp
  exact ⟨hn, (C6_amended_shutdown ⟨{60}⟩ 1).2.2.2.1 60 hn⟩

/-! ### Which events each loop block can emit -/

lemma play_events_mem (mn : MIDINote) (note velocity channel : ℤ) :
    ∀ e ∈ (mn.play note velocity channel).2,
      Event.isDisplayLayer e = false ∧ Event.isControlChange e = false := by
  intro e he
  unfold MIDINote.play at he
  by_cases h : note ∈ mn.active_notes
  · rw [if_pos h] at he
    simp at he
  · rw [if_neg h] at he
    simp at he
    subst he
    exact ⟨rfl, rfl⟩

lemma stop_events_mem (mn : MIDINote) (note channel : ℤ) :
    ∀ e ∈ (mn.stop note channel).2,
      Event.isDisplayLayer e = false ∧ Event.isControlChange e = false := by
  intro e he
  unfold MIDINote.stop at he
  by_cases h : note ∈ mn.active_notes
  · rw [if_pos h] at he
    simp at he
    subst he
    exact ⟨rfl, rfl⟩
  · rw [if_neg h] at he
    simp at he

lemma pressEvents_mem (mn : MIDINote) (k : ℕ) (vals : List ℤ) (ch : ℤ) :
    ∀ e ∈ (pressEvents mn k vals ch).2,
      Event.isDisplayLayer e = false ∧ Event.isControlChange e = false := by
  intro e he
  simp only [pressEvents] at he
  rw [List.mem_append] at he
  rcases he with he | he
  · exact play_events_mem _ _ _ _ e he
  · fin_cases he <;> exact ⟨rfl, rfl⟩

lemma pressFoldl_mem (vals : List ℤ) (ch : ℤ) (keys : List ℕ) :
    ∀ (mn : MIDINote) (evs0 : List Event),
      ∀ e ∈ (keys.foldl (pressFold vals ch) (mn, evs0)).2,
        e ∈ evs0 ∨ (Event.isDisplayLayer e = false ∧ Event.isControlChange e = false) := by
  induction keys with
  | nil =>
    intro mn evs0 e he
    exact Or.inl he
  | cons k rest ih =>
    intro mn evs0 e he
    rw [List.foldl_cons] at he
    have hf : pressFold vals ch (mn, evs0) k
        = ((pressEvents mn k vals ch).1, evs0 ++ (pressEvents mn k vals ch).2) := rfl
    rw [hf] at he
    rcases ih _ _ e he with hmem | hprop
    · rw [List.mem_append] at hmem
      rcases hmem with h | h
      · exact Or.inl h
      · exact Or.inr (pressEvents_mem _ _ _ _ e h)
    · exact Or.inr hprop

lemma releaseFoldl_mem (ch : ℤ) (keys : List ℕ) :
    ∀ (mn : MIDINote) (evs0 : List Event),
      ∀ e ∈ (keys.foldl (releaseFold ch) (mn, evs0)).2,
        e ∈ evs0 ∨ (Event.isDisplayLayer e = false ∧ Event.isControlChange e = false) := by
  induction keys with
  | nil =>
    intro mn evs0 e he
    exact Or.inl he
  | cons k rest ih =>
    intro mn evs0 e he
    rw [List.foldl_cons] at he
    have hf : releaseFold ch (mn, evs0) k
        = ((mn.stop (KEY_TO_NOTE.getD k 0) ch).1,
           evs0 ++ (mn.stop (KEY_TO_NOTE.getD k 0) ch).2) := rfl
    rw [hf] at he
    rcases ih _ _ e he with hmem | hprop
    · rw [List.mem_append] at hmem
      rcases hmem with h | h
      · exact Or.inl h
      · exact Or.inr (stop_events_mem _ _ _ e h)
    · exact Or.inr hprop

lemma perKeyEvs_not_displayLayer (delta : ℤ) (hd : Option ℕ) (ch : ℤ)
    (vals : List ℤ) (k : ℕ) :
    ∀ e ∈ perKeyEvs delta hd ch vals k, Event.isDisplayLayer e = false := by
  intro e he
  unfold perKeyEvs at he
  by_cases h1 : newValOf delta vals k ≠ vals.getD k 0
  · rw [if_pos h1] at he
    by_cases h2 : hd = some k
    · rw [if_pos h2] at he
      fin_cases he <;> rfl
    · rw [if_neg h2] at he
      fin_cases he <;> rfl
  · rw [if_neg h1] at he
    simp at he

lemma dispatchFoldl_not_displayLayer (delta : ℤ) (hd : Option ℕ) (ch : ℤ)
    (keys : List ℕ) :
    ∀ (vals : List ℤ) (evs0 : List Event),
      ∀ e ∈ (keys.foldl (dispatchStep delta hd ch) (vals, evs0)).2,
        e ∈ evs0 ∨ Event.isDisplayLayer e = false := by
  induction keys with
  | nil =>
    intro vals evs0 e he
    exact Or.inl he
  | cons k rest ih =>
    intro vals evs0 e he
    rw [List.foldl_cons, dispatchStep_char] at he
    rcases ih _ _ e he with hmem | hprop
    · rw [List.mem_append] at hmem
      rcases hmem with h | h
      · exact Or.inl h
      · exact Or.inr (perKeyEvs_not_displayLayer _ _ _ _ _ e h)
    · exact Or.inr hprop

lemma encoderDispatch_not_displayLayer (delta : ℤ) (pressed : List ℕ)
    (vals : List ℤ) (ch : ℤ) :
    ∀ e ∈ (encoderDispatch delta pressed vals ch).2,
      Event.isDisplayLayer e = false := by
  intro e he
  unfold encoderDispatch at he
  by_cases hg : delta ≠ 0 ∧ pressed ≠ []
  · rw [if_pos hg] at he
    rw [List.mem_append] at he
    rcases he with he | he
    · rcases dispatchFoldl_not_displayLayer delta pressed.head? ch pressed vals [] e he with
        h | h
      · simp at h
      · exact h
    · simp at he
      subst he
      rfl
  · rw [if_neg hg] at he
    simp at he

/-- The events of one loop iteration, in emission order: press block,
release block, throttled idle redraw, encoder dispatch, frame sleep. -/
lemma loopStep_events (s : LoopState) (inp : LoopInput) :
    (loopStep s inp).2 =
      ((s.prev_pressed_keys.filter
          (fun k => decide (k ∉ pressedKeysOf s inp))).foldl (releaseFold midi_channel)
        (((pressedKeysOf s inp).filter
            (fun k => decide (k ∉ s.prev_pressed_keys))).foldl
          (pressFold s.key_cc_values midi_channel) (s.midi_note, []))).2 ++
      (if pressedKeysOf s inp = [] ∧ s.prev_pressed_keys ≠ [] then
        if inp.now - s.last_display_update > DISPLAY_UPDATE_INTERVAL then
          [Event.displayLayer current_layer layer_name]
        else []
       else []) ++
      (encoderDispatch (EncoderWithValue.update s.encoder inp.clk inp.dt inp.now).1
        (pressedKeysOf s inp) s.key_cc_values midi_channel).2 ++
      [Event.sleepFor (1/100)] := by
  simp only [loopStep]
  by_cases hc1 : pressedKeysOf s inp = [] ∧ s.prev_pressed_keys ≠ []
  · by_cases hc2 : inp.now - s.last_display_update > DISPLAY_UPDATE_INTERVAL
    · rw [if_pos hc1, if_pos hc2, if_pos hc1, if_pos hc2]
    · rw [if_pos hc1, if_neg hc2, if_pos hc1, if_neg hc2]
  · rw [if_neg hc1, if_neg hc1]

lemma loopStep_last_display (s : LoopState) (inp : LoopInput) :
    (loopStep s inp).1.last_display_update =
      if pressedKeysOf s inp = [] ∧ s.prev_pressed_keys ≠ [] then
        if inp.now - s.last_display_update > DISPLAY_UPDATE_INTERVAL then inp.now
        else s.last_display_update
      else s.last_display_update := by
  simp only [loopStep]
  by_cases hc1 : pressedKeysOf s inp = [] ∧ s.prev_pressed_keys ≠ []
  · by_cases hc2 : inp.now - s.last_display_update > DISPLAY_UPDATE_INTERVAL
    · rw [if_pos hc1, if_pos hc2, if_pos hc1, if_pos hc2]
    · rw [if_pos hc1, if_neg hc2, if_pos hc1, if_neg hc2]
  · rw [if_neg hc1, if_neg hc1]

lemma loopStep_key_cc_values (s : LoopState) (inp : LoopInput) :
    (loopStep s inp).1.key_cc_values =
      (encoderDispatch (EncoderWithValue.update s.encoder inp.clk inp.dt inp.now).1
        (pressedKeysOf s inp) s.key_cc_values midi_channel).1 := rfl

lemma countP_eq_zero_of_not_mem {p : Event → Bool} {l : List Event}
    (h : ∀ e ∈ l, p e = false) : l.countP p = 0 := by
  rw [List.countP_eq_zero]
  intro e he
  rw [h e he]
  exact Bool.false_ne_true

/-- **C7 amended**: within one loop iteration the idle layer view is
re-rendered exactly once iff the pressed set is empty, the previous
iteration's pressed set was non-empty, AND strictly more than 100ms have
elapsed since the last idle-layer redraw (which is the only action that
updates `last_display_update` — full-status refreshes do not); otherwise
it is not re-rendered at all in that iteration, and `last_display_update`
advances to the current time exactly when the redraw fires.  The check
lives only in the transition iteration: when it is throttled there, the
next iterations see an empty previous-pressed set and never retry. -/
theorem C7_amended_idle_redraw (s : LoopState) (inp : LoopInput) :
    ((loopStep s inp).2.countP Event.isDisplayLayer =
      if pressedKeysOf s inp = [] ∧ s.prev_pressed_keys ≠ [] ∧
          inp.now - s.last_display_update > DISPLAY_UPDATE_INTERVAL
      then 1 else 0) ∧
    ((loopStep s inp).1.last_display_update =
      if pressedKeysOf s inp = [] ∧ s.prev_pressed_keys ≠ [] ∧
          inp.now - s.last_display_update > DISPLAY_UPDATE_INTERVAL
      then inp.now else s.last_display_update) := by
  have hrel : ∀ e ∈ ((s.prev_pressed_keys.filter
        (fun k => decide (k ∉ pressedKeysOf s inp))).foldl (releaseFold midi_channel)
      (((pressedKeysOf s inp).filter
          (fun k => decide (k ∉ s.prev_pressed_keys))).foldl
        (pressFold s.key_cc_values midi_channel) (s.midi_note, []))).2,
      Event.isDisplayLayer e = false := by
    intro e he
    rcases releaseFoldl_mem _ _ _ _ e he with hmem | hprop
    · rcases pressFoldl_mem _ _ _ _ _ e hmem with hnil | hprop2
      · simp at hnil
      · exact hprop2.1
    · exact hprop.1
  constructor
  · rw [loopStep_events, List.countP_append, List.countP_append, List.countP_append,
      countP_eq_zero_of_not_mem hrel,
      countP_eq_zero_of_not_mem (encoderDispatch_not_displayLayer _ _ _ _)]
    by_cases hc1 : pressedKeysOf s inp = [] ∧ s.prev_pressed_keys ≠ []
    · by_cases hc2 : inp.now - s.last_display_update > DISPLAY_UPDATE_INTERVAL
      · rw [if_pos hc1, if_pos hc2, if_pos ⟨hc1.1, hc1.2, hc2⟩]
        rfl
      · rw [if_pos hc1, if_neg hc2, if_neg (fun hc => hc2 hc.2.2)]
        rfl
    · rw [if_neg hc1, if_neg (fun hc => hc1 ⟨hc.1, hc.2.1⟩)]
      rfl
  · rw [loopStep_last_display]
    by_cases hc1 : pressedKeysOf s inp = [] ∧ s.prev_pressed_keys ≠ []
    · by_cases hc2 : inp.now - s.last_display_update > DISPLAY_UPDATE_INTERVAL
      · rw [if_pos hc1, if_pos hc2, if_pos ⟨hc1.1, hc1.2, hc2⟩]
      · rw [if_pos hc1, if_neg hc2, if_neg (fun hc => hc2 hc.2.2)]
    · rw [if_neg hc1, if_neg (fun hc => hc1 ⟨hc.1, hc.2.1⟩)]

set_option maxHeartbeats 4000000 in
/-- **C7 counterexample** to "after a release that leaves no keys held,
once at least 100ms pass with no further presses the display switches to
the idle layer view exactly once": key 0 is pressed at t = 1 s, released
at t = 1.05 s (idle redraw fires, `last_display_update := 1.05`),
pressed again at t = 1.08 s, and finally released at t = 1.11 s, which
leaves no keys held.  In the release iteration the throttle finds only
60ms since the last idle redraw, skips the redraw, and — because the
check runs only in the iteration where the pressed set transitions to
empty — the iterations at t = 1.3 s and t = 2 s (no keys pressed, more
than 100ms after the release) re-render the idle view zero times, not
exactly once; the whole six-iteration run re-renders it only once, at
the first release. -/
theorem C7_counterexample :
    ((runLoop C7init
        [C7in true 1, C7in false (21/20), C7in true (27/25), C7in false (111/100),
         C7in false (13/10), C7in false 2]).2.countP Event.isDisplayLayer = 1) ∧
    ((runLoop C7init
        [C7in true 1, C7in false (21/20), C7in true (27/25),
         C7in false (111/100)]).1.prev_pressed_keys = []) ∧
    ((runLoop (runLoop C7init
        [C7in true 1, C7in false (21/20), C7in true (27/25),
         C7in false (111/100)]).1
      [C7in false (13/10), C7in false 2]).2.countP Event.isDisplayLayer = 0) ∧
    ((2 : ℚ) - 111/100 > DISPLAY_UPDATE_INTERVAL) := by
  refine ⟨?_, ?_, ?_, by norm_num [DISPLAY_UPDATE_INTERVAL]⟩ <;>
    norm_num [C7init, C7in, runLoop, loopStep, pressedKeysOf, scannedSwitches,
      debounceStep, DEBOUNCE_TIME, DISPLAY_UPDATE_INTERVAL, List.replicate,
      List.range, List.range.loop, EncoderWithValue.update, RotaryEncoder.update,
      pressFold, releaseFold, pressEvents, MIDINote.play, MIDINote.stop,
      KEY_TO_NOTE, KEY_TO_CC, KEY_PARAM_NAMES, encoderDispatch, midi_channel,
      List.countP, List.countP.go, Event.isDisplayLayer]

/-! ### Saturated encoder and the dispatch loop (C10) -/

/-- On a CLK falling edge the raw decoder delta is non-zero. -/
lemma rotary_delta_ne_zero (s : RotaryEncoder) (clk dt : Bool) (t : ℚ)
    (hl : s.last_clk_state = true) (hc : clk = false) :
    (RotaryEncoder.update s clk dt t).1 ≠ 0 := by
  unfold RotaryEncoder.update
  have hedge : (s.last_clk_state && !clk) = true := by rw [hl, hc]; rfl
  rw [if_pos hedge]
  cases dt
  · simp only [Bool.false_eq_true, if_false]
    split <;> norm_num [ACCELERATION_MULTIPLIER]
  · simp only [if_true]
    split <;> norm_num [ACCELERATION_MULTIPLIER]

/-- The sign of the raw decoder delta follows phase B. -/
lemma rotary_delta_sign (s : RotaryEncoder) (clk dt : Bool) (t : ℚ) :
    (dt = true → 0 ≤ (RotaryEncoder.update s clk dt t).1) ∧
    (dt = false → (RotaryEncoder.update s clk dt t).1 ≤ 0) := by
  unfold RotaryEncoder.update
  by_cases hedge : (s.last_clk_state && !clk) = true
  · rw [if_pos hedge]
    constructor
    · intro hdt
      subst hdt
      simp only [if_true]
      split <;> norm_num [ACCELERATION_MULTIPLIER]
    · intro hdt
      subst hdt
      simp only [Bool.false_eq_true, if_false]
      split <;> norm_num [ACCELERATION_MULTIPLIER]
  · rw [if_neg hedge]
    exact ⟨fun _ => le_refl 0, fun _ => le_refl 0⟩

/-- A value pinned at a boundary swallows deltas pushing past it. -/
lemma encoderWithValue_saturated (e : EncoderWithValue) (clk dt : Bool) (t : ℚ)
    (hrange : e.min_value ≤ e.max_value)
    (hsat : (e.value = e.max_value ∧ 0 ≤ (RotaryEncoder.update e.encoder clk dt t).1) ∨
            (e.value = e.min_value ∧ (RotaryEncoder.update e.encoder clk dt t).1 ≤ 0)) :
    (EncoderWithValue.update e clk dt t).1 = 0 ∧
    (EncoderWithValue.update e clk dt t).2.value = e.value := by
  unfold EncoderWithValue.update
  by_cases hd : (RotaryEncoder.update e.encoder clk dt t).1 ≠ 0
  · rw [if_pos hd]
    rcases hsat with ⟨hv, hp⟩ | ⟨hv, hp⟩
    · have h1 : min e.max_value (e.value + (RotaryEncoder.update e.encoder clk dt t).1)
          = e.max_value := min_eq_left (by omega)
      constructor
      · show max e.min_value
          (min e.max_value (e.value + (RotaryEncoder.update e.encoder clk dt t).1))
            - e.value = 0
        rw [h1, max_eq_right hrange]
        omega
      · show max e.min_value
          (min e.max_value (e.value + (RotaryEncoder.update e.encoder clk dt t).1))
            = e.value
        rw [h1, max_eq_right hrange]
        omega
    · have h1 : min e.max_value (e.value + (RotaryEncoder.update e.encoder clk dt t).1)
          = e.value + (RotaryEncoder.update e.encoder clk dt t).1 :=
        min_eq_right (by omega)
      have h2 : max e.min_value (e.value + (RotaryEncoder.update e.encoder clk dt t).1)
          = e.min_value := max_eq_left (by omega)
      constructor
      · show max e.min_value
          (min e.max_value (e.value + (RotaryEncoder.update e.encoder clk dt t).1))
            - e.value = 0
        rw [h1, h2]
        omega
      · show max e.min_value
          (min e.max_value (e.value + (RotaryEncoder.update e.encoder clk dt t).1))
            = e.value
        rw [h1, h2]
        omega
  · rw [if_neg hd]
    exact ⟨rfl, rfl⟩

/-- **C10**: the dispatch loop's per-iteration delta comes from one
`EncoderWithValue` (initialised to 64 in [0,127]) clamped independently
of the per-key CC values: once its internal value is saturated at 127
(resp. 0), a further clockwise (resp. counter-clockwise) CLK falling
edge still registers in the raw decoder (raw delta ≠ 0), yet `update()`
returns 0, so the iteration leaves every stored CC value unchanged and
emits no Control-Change — even when every held key's stored value lies
strictly inside [0,127]. -/
theorem C10_saturated_encoder_blocks_dispatch (s : LoopState) (inp : LoopInput)
    (hmin : s.encoder.min_value = 0) (hmax : s.encoder.max_value = 127)
    (hclk : s.encoder.encoder.last_clk_state = true) (hfall : inp.clk = false)
    (hsat : (inp.dt = true ∧ s.encoder.value = 127) ∨
            (inp.dt = false ∧ s.encoder.value = 0))
    (_hinside : ∀ v ∈ s.key_cc_values, 0 < v ∧ v < 127) :
    (RotaryEncoder.update s.encoder.encoder inp.clk inp.dt inp.now).1 ≠ 0 ∧
    (EncoderWithValue.update s.encoder inp.clk inp.dt inp.now).1 = 0 ∧
    (loopStep s inp).1.key_cc_values = s.key_cc_values ∧
    (loopStep s inp).2.countP Event.isControlChange = 0 := by
  have hs := rotary_delta_sign s.encoder.encoder inp.clk inp.dt inp.now
  have hsat' : (s.encoder.value = s.encoder.max_value ∧
        0 ≤ (RotaryEncoder.update s.encoder.encoder inp.clk inp.dt inp.now).1) ∨
      (s.encoder.value = s.encoder.min_value ∧
        (RotaryEncoder.update s.encoder.encoder inp.clk inp.dt inp.now).1 ≤ 0) := by
    rcases hsat with ⟨hdt, hv⟩ | ⟨hdt, hv⟩
    · exact Or.inl ⟨by rw [hv, hmax], hs.1 hdt⟩
    · exact Or.inr ⟨by rw [hv, hmin], hs.2 hdt⟩
  have h0 := encoderWithValue_saturated s.encoder inp.clk inp.dt inp.now
    (by rw [hmin, hmax]; norm_num) hsat'
  have hdisp : encoderDispatch
      (EncoderWithValue.update s.encoder inp.clk inp.dt inp.now).1
      (pressedKeysOf s inp) s.key_cc_values midi_channel
      = (s.key_cc_values, []) := by
    unfold encoderDispatch
    rw [if_neg (fun hc => hc.1 h0.1)]
  refine ⟨rotary_delta_ne_zero _ _ _ _ hclk hfall, h0.1, ?_, ?_⟩
  · rw [loopStep_key_cc_values, hdisp]
  · rw [loopStep_events, List.countP_append, List.countP_append, List.countP_append,
      hdisp]
    have hrel : ∀ e ∈ ((s.prev_pressed_keys.filter
          (fun k => decide (k ∉ pressedKeysOf s inp))).foldl (releaseFold midi_channel)
        (((pressedKeysOf s inp).filter
            (fun k => decide (k ∉ s.prev_pressed_keys))).foldl
          (pressFold s.key_cc_values midi_channel) (s.midi_note, []))).2,
        Event.isControlChange e = false := by
      intro e he
      rcases releaseFoldl_mem _ _ _ _ e he with hmem | hprop
      · rcases pressFoldl_mem _ _ _ _ _ e hmem with hnil | hprop2
        · simp at hnil
        · exact hprop2.2
      · exact hprop.2
    rw [countP_eq_zero_of_not_mem hrel]
    have hidle : (if pressedKeysOf s inp = [] ∧ s.prev_pressed_keys ≠ [] then
        if inp.now - s.last_display_update > DISPLAY_UPDATE_INTERVAL then
          [Event.displayLayer current_layer layer_name]
        else []
       else []).countP Event.isControlChange = 0 := by
      by_cases hc1 : pressedKeysOf s inp = [] ∧ s.prev_pressed_keys ≠ []
      · by_cases hc2 : inp.now - s.last_display_update > DISPLAY_UPDATE_INTERVAL
        · rw [if_pos hc1, if_pos hc2]; rfl
        · rw [if_pos hc1, if_neg hc2]; rfl
      · rw [if_neg hc1]; rfl
    rw [hidle]
    rfl

/-- Witness for `C10_saturated_encoder_blocks_dispatch`: encoder value
saturated at 127, key 0 held with stored value 64, a clockwise falling
edge arrives — raw delta is non-zero, the returned delta is 0, the CC
array is untouched and no Control-Change is emitted. -/
theorem C10_witness :
    ((RotaryEncoder.update ⟨0, true, false, 0⟩ false true 1).1 ≠ 0 ∧
      (EncoderWithValue.update ⟨⟨0, true, false, 0⟩, 127, 0, 127⟩ false true 1).1 = 0) ∧
    ((loopStep
        ⟨List.replicate 18 ⟨false, 0⟩, ⟨⟨0, true, false, 0⟩, 127, 0, 127⟩, ⟨∅⟩,
          List.replicate 16 64, [0], 0⟩
        ⟨List.replicate 18 false, false, true, 1⟩).1.key_cc_values
      = List.replicate 16 64) := by
  have h := C10_saturated_encoder_blocks_dispatch
    ⟨List.replicate 18 ⟨false, 0⟩, ⟨⟨0, true, false, 0⟩, 127, 0, 127⟩, ⟨∅⟩,
      List.replicate 16 64, [0], 0⟩
    ⟨List.replicate 18 false, false, true, 1⟩
    rfl rfl rfl rfl (Or.inl ⟨rfl, rfl⟩) (by decide)
  exact ⟨⟨h.1, h.2.1⟩, h.2.2.1⟩
